import Mathlib

/-!
Verification of the Qwipo recommender service (`api_service.py`).

The development shallowly embeds the `/recommend/full` endpoint
(`get_hybrid_recommendations`) together with the data it reads: the
retailer and product maps, the product catalog, the content-vector store
and the retailer-profile table.  Python dictionaries are modelled as
association lists, dictionary lookup that may raise `KeyError` returns
`Except`, and floating point numbers are modelled as exact rationals.
Python's stable `list.sort` and `np.argsort` are modelled by a stable
insertion sort.
-/

namespace Qwipo

/-- `TOP_K_CANDIDATES = 500` (api_service.py line 18). -/
def TOP_K_CANDIDATES : Nat := 500

/-- `FINAL_LIST_SIZE = 10` (api_service.py line 19). -/
def FINAL_LIST_SIZE : Nat := 10

/-- `W_MODEL = 0.5` (api_service.py line 22). -/
def W_MODEL : ℚ := 0.5

/-- `W_PROFIT = 0.3` (api_service.py line 23). -/
def W_PROFIT : ℚ := 0.3

/-- `W_STOCK = 0.2` (api_service.py line 24). -/
def W_STOCK : ℚ := 0.2

/-- One row of `product_catalog` (columns of `product_catalog.csv` used by
the service: `Category`, `ProfitMargin`, `CurrentStock`). -/
structure ProductData where
  Category : Int
  ProfitMargin : ℚ
  CurrentStock : ℚ
deriving DecidableEq

/-- One row of `retailer_profiles` (columns `StoreType`, `LocationTier`,
already encoded as integers by `load_artifacts`). -/
structure RetailerData where
  StoreType : Int
  LocationTier : Int
deriving DecidableEq

/-- The process-wide data loaded by `load_artifacts` (api_service.py
lines 26-32): `retailer_map`, `product_map`, `product_vectors_data`,
`product_catalog`, `retailer_profiles`.  Python dictionaries are
association lists keyed by identifier strings. -/
structure Catalog where
  retailer_map : List (String × Int)
  product_map : List (String × Int)
  product_vectors_data : List (String × List ℚ)
  product_catalog : List (String × ProductData)
  retailer_profiles : List (String × RetailerData)
deriving DecidableEq

/-- One row of the batch handed to `model.predict` (api_service.py
lines 136-139): retailer id index, store type, location tier, product id
index, LLM content vector, category, profit margin, current stock. -/
structure ScorerInput where
  retailer_idx : Int
  store_type : Int
  location_tier : Int
  product_idx : Int
  llm_vec : List ℚ
  category : Int
  profit_margin : ℚ
  current_stock : ℚ
deriving DecidableEq

/-- The response schema `RecommendationResponse` (api_service.py
lines 38-41). -/
structure RecommendationResponse where
  product_id : String
  predicted_score : ℚ
  final_rank : Nat
deriving DecidableEq

/-- The ways a request can fail: the explicit 404 raised for an unknown
retailer (api_service.py line 102), and an unguarded Python `KeyError`
from a dictionary lookup. -/
inductive RecError where
  | notFound
  | keyError (key : String)
deriving DecidableEq

/-- Python dictionary lookup `m[k]` as an optional value. -/
def dictGet (m : List (String × α)) (k : String) : Option α :=
  match m with
  | [] => none
  | (k0, v) :: rest => if k0 = k then some v else dictGet rest k

/-- An unguarded dictionary access: `some` is the stored value, `none`
raises the given error. -/
def orRaise (e : RecError) : Option α → Except RecError α
  | some a => Except.ok a
  | none => Except.error e

/-- A Python list comprehension whose body may raise: the first raised
error aborts the whole comprehension. -/
def mapE (f : α → Except RecError β) : List α → Except RecError (List β)
  | [] => Except.ok []
  | a :: l => do
    let b ← f a
    let bs ← mapE f l
    pure (b :: bs)

/-- `normalized_margin = (profit_margin - 0.1) / (0.4 - 0.1)`
(api_service.py line 160). -/
def normalized_margin (profit_margin : ℚ) : ℚ :=
  (profit_margin - 0.1) / (0.4 - 0.1)

/-- `normalized_stock = np.clip(current_stock / 500, 0, 1)`
(api_service.py line 161). -/
def normalized_stock (current_stock : ℚ) : ℚ :=
  min (max (current_stock / 500) 0) 1

/-- `stock_penalty = 1.0 if current_stock < 50 else 0.0`
(api_service.py line 164). -/
def stock_penalty (current_stock : ℚ) : ℚ :=
  if current_stock < 50 then 1.0 else 0.0

/-- `final_score = (W_MODEL * score) + (W_PROFIT * normalized_margin)
- (W_STOCK * stock_penalty)` (api_service.py line 167). -/
def business_score (score profit_margin current_stock : ℚ) : ℚ :=
  W_MODEL * score + W_PROFIT * normalized_margin profit_margin
    - W_STOCK * stock_penalty current_stock

/-- The body of the re-ranking loop for one shortlisted candidate
`(score, pid)` (api_service.py lines 151-169): resolve the product in
`product_catalog` (an unguarded lookup), compute the normalizations and
the business score, and emit `(pid, final_score, score)`.
`normalized_stock` is computed but does not feed the score, exactly as
in the source. -/
def rerank_candidate (product_catalog : List (String × ProductData))
    (sp : ℚ × String) : Except RecError (String × ℚ × ℚ) := do
  let score := sp.1
  let pid := sp.2
  let p_data ← orRaise (RecError.keyError pid) (dictGet product_catalog pid)
  let profit_margin := p_data.ProfitMargin
  let current_stock := p_data.CurrentStock
  let _ns := normalized_stock current_stock
  let final_score := business_score score profit_margin current_stock
  pure (pid, final_score, score)

/-- `np.argsort(predictions)`: the indices `0, ..., n-1` sorted
ascending by the corresponding prediction (api_service.py line 142).
NumPy leaves the order of equal elements unspecified; the model uses a
stable insertion sort. -/
def argsort (xs : List ℚ) : List Nat :=
  List.insertionSort (fun i j => xs.getD i 0 ≤ xs.getD j 0)
    (List.range xs.length)

/-- `np.argsort(predictions)[::-1][:k]`: the candidate selection of the
top `k` products by model relevance (api_service.py line 142). -/
def select_top_k (predictions : List ℚ) (k : Nat) : List Nat :=
  ((argsort predictions).reverse).take k

/-- Alignment of the eight `model.predict` input columns into one row
per product (api_service.py lines 122-133 build the columns,
lines 136-139 feed them to the model as one batch). -/
def buildInputs (retailer_idx store_type location_tier : Int) :
    List Int → List (List ℚ) → List Int → List ℚ → List ℚ →
      List ScorerInput
  | p :: ps, v :: vs, c :: cs, m :: ms, s :: ss =>
    ⟨retailer_idx, store_type, location_tier, p, v, c, m, s⟩ ::
      buildInputs retailer_idx store_type location_tier ps vs cs ms ss
  | _, _, _, _, _ => []

/-- The comprehension body of line 129:
`product_vectors_data[pid]` (an unguarded lookup). -/
def vec_feature (C : Catalog) (pid : String) : Except RecError (List ℚ) :=
  orRaise (RecError.keyError pid) (dictGet C.product_vectors_data pid)

/-- The comprehension body of line 131:
`product_catalog[pid]['Category']`. -/
def cat_feature (C : Catalog) (pid : String) : Except RecError Int := do
  let p ← orRaise (RecError.keyError pid) (dictGet C.product_catalog pid)
  pure p.Category

/-- The comprehension body of line 132:
`product_catalog[pid]['ProfitMargin']`. -/
def margin_feature (C : Catalog) (pid : String) : Except RecError ℚ := do
  let p ← orRaise (RecError.keyError pid) (dictGet C.product_catalog pid)
  pure p.ProfitMargin

/-- The comprehension body of line 133:
`product_catalog[pid]['CurrentStock']`. -/
def stock_feature (C : Catalog) (pid : String) : Except RecError ℚ := do
  let p ← orRaise (RecError.keyError pid) (dictGet C.product_catalog pid)
  pure p.CurrentStock

/-- Candidate generation (api_service.py lines 112-144): build the
feature columns for every product of `product_map` (each column a
comprehension over unguarded dictionary lookups), score the whole batch
with the model, and keep the top `TOP_K_CANDIDATES` indices by score.
Returns `zip(candidate_predictions, candidate_pids)` as consumed by the
re-ranking loop of line 151. -/
def candidate_generation (C : Catalog) (scorer : ScorerInput → ℚ)
    (retailer_idx store_type location_tier : Int) :
    Except RecError (List (ℚ × String)) := do
  let all_product_ids := C.product_map.map Prod.fst
  let all_product_indices := C.product_map.map Prod.snd
  let llm_vec_input ← mapE (vec_feature C) all_product_ids
  let cat_input ← mapE (cat_feature C) all_product_ids
  let margin_input ← mapE (margin_feature C) all_product_ids
  let stock_input ← mapE (stock_feature C) all_product_ids
  let inputs := buildInputs retailer_idx store_type location_tier
    all_product_indices llm_vec_input cat_input margin_input stock_input
  let predictions := inputs.map scorer
  let top_indices := select_top_k predictions TOP_K_CANDIDATES
  let candidate_predictions := top_indices.map (fun i => predictions.getD i 0)
  let candidate_pids := top_indices.map (fun i => all_product_ids.getD i "")
  pure (candidate_predictions.zip candidate_pids)

/-- `final_scores.sort(key=lambda x: x[1], reverse=True)`
(api_service.py line 172): a stable sort, descending by the business
score component. -/
def sort_final (l : List (String × ℚ × ℚ)) : List (String × ℚ × ℚ) :=
  List.insertionSort (fun a b => b.2.1 ≤ a.2.1) l

/-- The `/recommend/full` endpoint `get_hybrid_recommendations`
(api_service.py lines 96-184): reject a retailer id missing from
`retailer_map` with a 404, resolve the profile (an unguarded lookup),
generate candidates, re-rank them by business score, truncate to
`FINAL_LIST_SIZE` and assign dense one-based ranks. -/
def get_hybrid_recommendations (C : Catalog) (scorer : ScorerInput → ℚ)
    (retailer_id : String) :
    Except RecError (List RecommendationResponse) :=
  match dictGet C.retailer_map retailer_id with
  | none => Except.error RecError.notFound
  | some retailer_idx => do
    let retailer_data ← orRaise (RecError.keyError retailer_id)
      (dictGet C.retailer_profiles retailer_id)
    let st_data_int := retailer_data.StoreType
    let lt_data_int := retailer_data.LocationTier
    let candidates ← candidate_generation C scorer retailer_idx
      st_data_int lt_data_int
    let final_scores ← mapE (rerank_candidate C.product_catalog) candidates
    let sorted := sort_final final_scores
    let response_list := ((sorted.take FINAL_LIST_SIZE).enum).map
      (fun p => RecommendationResponse.mk p.2.1 p.2.2.2 (p.1 + 1))
    pure response_list

/-- The endpoint as a computation over the process-wide global state
(api_service.py lines 26-32 declare the globals; the handler only ever
reads them, each access modelled by a fresh `get`). -/
def get_hybrid_recommendations_st (scorer : ScorerInput → ℚ)
    (retailer_id : String) :
    StateM Catalog (Except RecError (List RecommendationResponse)) := do
  let rmap := (← get).retailer_map
  match dictGet rmap retailer_id with
  | none => pure (Except.error RecError.notFound)
  | some retailer_idx =>
    match orRaise (RecError.keyError retailer_id)
        (dictGet (← get).retailer_profiles retailer_id) with
    | Except.error e => pure (Except.error e)
    | Except.ok retailer_data =>
      match candidate_generation (← get) scorer retailer_idx
          retailer_data.StoreType retailer_data.LocationTier with
      | Except.error e => pure (Except.error e)
      | Except.ok candidates =>
        match mapE (rerank_candidate (← get).product_catalog) candidates with
        | Except.error e => pure (Except.error e)
        | Except.ok final_scores =>
          pure (Except.ok
            (((sort_final final_scores).take FINAL_LIST_SIZE).enum.map
              (fun p => RecommendationResponse.mk p.2.1 p.2.2.2 (p.1 + 1))))

/-- A concrete catalog snapshot: three products with model scores
0.9 / 0.8 / 0.7, margins 0.1 / 0.4 / 0.25 and stocks 10 / 200 / 60
(the end-to-end scenario of the specification), one retailer `R001`. -/
def exCatalog : Catalog where
  retailer_map := [("R001", 0)]
  product_map := [("P1", 0), ("P2", 1), ("P3", 2)]
  product_vectors_data := [("P1", [1]), ("P2", [2]), ("P3", [3])]
  product_catalog :=
    [("P1", ⟨0, 0.1, 10⟩), ("P2", ⟨1, 0.4, 200⟩), ("P3", ⟨2, 0.25, 60⟩)]
  retailer_profiles := [("R001", ⟨0, 0⟩)]

/-- A deterministic model for `exCatalog`: relevance 0.9 / 0.8 / 0.7 for
the products with indices 0 / 1 / 2. -/
def exScorer : ScorerInput → ℚ := fun inp =>
  if inp.product_idx = 0 then 0.9 else if inp.product_idx = 1 then 0.8 else 0.7

/-- A catalog whose retailer map knows `R007` but whose profile table
does not: the situation distinguishing the 404 guard from the unguarded
profile lookup. -/
def gapCatalog : Catalog where
  retailer_map := [("R007", 0)]
  product_map := [("P1", 0)]
  product_vectors_data := [("P1", [1])]
  product_catalog := [("P1", ⟨0, 0.25, 100⟩)]
  retailer_profiles := []

/-! ### Basic computation lemmas -/

@[simp] theorem bind_ok (a : α) (f : α → Except RecError β) :
    (Except.ok a : Except RecError α) >>= f = f a := rfl

@[simp] theorem bind_error (e : RecError) (f : α → Except RecError β) :
    (Except.error e : Except RecError α) >>= f = Except.error e := rfl

@[simp] theorem pure_ok (a : α) :
    (pure a : Except RecError α) = Except.ok a := rfl

/-- Evaluating the re-ranking loop body on a candidate whose product
resolves in the catalog. -/
theorem rerank_candidate_eq (pc : List (String × ProductData))
    (s : ℚ) (pid : String) (p : ProductData)
    (h : dictGet pc pid = some p) :
    rerank_candidate pc (s, pid) =
      Except.ok (pid, business_score s p.ProfitMargin p.CurrentStock, s) := by
  simp [rerank_candidate, orRaise, h]

/-- `mapE` succeeds when every body evaluation succeeds, and the output
has one element per input. -/
theorem mapE_ok (f : α → Except RecError β) (l : List α)
    (h : ∀ a ∈ l, ∃ b, f a = Except.ok b) :
    ∃ l2, mapE f l = Except.ok l2 ∧ l2.length = l.length := by
  induction l with
  | nil => exact ⟨[], rfl, rfl⟩
  | cons a l ih =>
    obtain ⟨b, hb⟩ := h a (List.mem_cons_self a l)
    obtain ⟨l2, hl2, hlen⟩ := ih (fun x hx => h x (List.mem_cons_of_mem a hx))
    exact ⟨b :: l2, by simp [mapE, hb, hl2], by simp [hlen]⟩

/-- Every element of a successful `mapE` output is the value of the
body at some element of the input. -/
theorem mapE_mem (f : α → Except RecError β) (l : List α) (l2 : List β)
    (h : mapE f l = Except.ok l2) :
    ∀ b ∈ l2, ∃ a ∈ l, f a = Except.ok b := by
  induction l generalizing l2 with
  | nil =>
    simp only [mapE] at h
    cases h
    intro b hb
    simp at hb
  | cons a l ih =>
    simp only [mapE] at h
    rcases ha : f a with e | b0
    · rw [ha] at h
      simp at h
    · rw [ha] at h
      simp only [bind_ok] at h
      rcases hl : mapE f l with e | l2h
      · rw [hl] at h
        simp at h
      · rw [hl] at h
        simp only [bind_ok, pure_ok, Except.ok.injEq] at h
        subst h
        intro b hb
        rcases List.mem_cons.mp hb with hb | hb
        · exact ⟨a, List.mem_cons_self a l, by rw [ha, hb]⟩
        · obtain ⟨x, hx, hfx⟩ := ih l2h hl b hb
          exact ⟨x, List.mem_cons_of_mem a hx, hfx⟩

/-- `buildInputs` produces one scorer row per product when the feature
columns are aligned. -/
theorem buildInputs_length (r st lt : Int) :
    ∀ (ps : List Int) (vs : List (List ℚ)) (cs : List Int)
      (ms ss : List ℚ),
      vs.length = ps.length → cs.length = ps.length →
      ms.length = ps.length → ss.length = ps.length →
      (buildInputs r st lt ps vs cs ms ss).length = ps.length := by
  intro ps
  induction ps with
  | nil =>
    intro vs cs ms ss _ _ _ _
    cases vs <;> cases cs <;> cases ms <;> cases ss <;> rfl
  | cons p ps ih =>
    intro vs cs ms ss hv hc hm hs
    cases vs with
    | nil => simp at hv
    | cons v vs =>
      cases cs with
      | nil => simp at hc
      | cons c cs =>
        cases ms with
        | nil => simp at hm
        | cons m ms =>
          cases ss with
          | nil => simp at hs
          | cons s ss =>
            simp only [buildInputs, List.length_cons]
            rw [ih vs cs ms ss (by simpa using hv) (by simpa using hc)
              (by simpa using hm) (by simpa using hs)]

/-! ### `argsort` and top-k selection -/

/-- The comparison used by `argsort` is total. -/
theorem argsort_total (xs : List ℚ) :
    IsTotal Nat (fun i j => xs.getD i 0 ≤ xs.getD j 0) :=
  ⟨fun a b => le_total (xs.getD a 0) (xs.getD b 0)⟩

/-- The comparison used by `argsort` is transitive. -/
theorem argsort_trans (xs : List ℚ) :
    IsTrans Nat (fun i j => xs.getD i 0 ≤ xs.getD j 0) :=
  ⟨fun _ _ _ hab hbc => le_trans hab hbc⟩

/-- `argsort` permutes the index range. -/
theorem argsort_perm (xs : List ℚ) :
    List.Perm (argsort xs) (List.range xs.length) :=
  List.perm_insertionSort (fun i j => xs.getD i 0 ≤ xs.getD j 0)
    (List.range xs.length)

/-- `argsort` lists indices in ascending order of score. -/
theorem argsort_sorted (xs : List ℚ) :
    (argsort xs).Pairwise (fun i j => xs.getD i 0 ≤ xs.getD j 0) := by
  have h1 := argsort_total xs
  have h2 := argsort_trans xs
  exact List.sorted_insertionSort (fun i j => xs.getD i 0 ≤ xs.getD j 0)
    (List.range xs.length)

/-- The selection keeps `min k n` of the `n` scored products. -/
theorem select_top_k_length (xs : List ℚ) (k : Nat) :
    (select_top_k xs k).length = min k xs.length := by
  simp [select_top_k, argsort]

/-- Every selected index is an index into the score list. -/
theorem select_top_k_mem_lt (xs : List ℚ) (k : Nat) (i : Nat)
    (h : i ∈ select_top_k xs k) : i < xs.length := by
  have h1 : i ∈ (argsort xs).reverse := List.mem_of_mem_take h
  rw [List.mem_reverse] at h1
  have h2 := (argsort_perm xs).mem_iff.mp h1
  exact List.mem_range.mp h2

/-- Selected indices appear in descending order of score. -/
theorem select_top_k_sorted (xs : List ℚ) (k : Nat) :
    (select_top_k xs k).Pairwise (fun i j => xs.getD j 0 ≤ xs.getD i 0) := by
  have h1 : (argsort xs).reverse.Pairwise
      (fun i j => xs.getD j 0 ≤ xs.getD i 0) :=
    List.pairwise_reverse.mpr (argsort_sorted xs)
  exact h1.sublist (List.take_sublist k _)

/-- Every selected index scores at least every unselected index. -/
theorem select_top_k_ge_unselected (xs : List ℚ) (k i j : Nat)
    (hi : i ∈ select_top_k xs k) (hj : j < xs.length)
    (hj2 : j ∉ select_top_k xs k) : xs.getD j 0 ≤ xs.getD i 0 := by
  have hrev : List.Perm (argsort xs).reverse (List.range xs.length) :=
    (List.reverse_perm (argsort xs)).trans (argsort_perm xs)
  have hjr : j ∈ (argsort xs).reverse :=
    hrev.mem_iff.mpr (List.mem_range.mpr hj)
  have hsplit := List.take_append_drop k (argsort xs).reverse
  have hjd : j ∈ (argsort xs).reverse.drop k := by
    rw [← hsplit, List.mem_append] at hjr
    rcases hjr with hjt | hjd
    · exact absurd hjt hj2
    · exact hjd
  have hp : ((argsort xs).reverse).Pairwise
      (fun i j => xs.getD j 0 ≤ xs.getD i 0) :=
    List.pairwise_reverse.mpr (argsort_sorted xs)
  rw [← hsplit, List.pairwise_append] at hp
  exact hp.2.2 i hi j hjd

/-- With `k` at least the number of scored products, the selection is a
permutation of all product indices. -/
theorem select_top_k_all (xs : List ℚ) (k : Nat) (h : xs.length ≤ k) :
    List.Perm (select_top_k xs k) (List.range xs.length) := by
  have hlen : (argsort xs).reverse.length = xs.length := by
    simp [argsort]
  rw [select_top_k, List.take_of_length_le (le_trans (le_of_eq hlen) h)]
  exact (List.reverse_perm (argsort xs)).trans (argsort_perm xs)

/-! ### The pipeline on a well-formed catalog -/

/-- Candidate generation succeeds on a catalog in which every product of
`product_map` resolves in the vector store and the product catalog; it
returns `min TOP_K_CANDIDATES n` candidates, every candidate product id
drawn from `product_map`. -/
theorem candidate_generation_ok (C : Catalog) (scorer : ScorerInput → ℚ)
    (ridx st lt : Int)
    (hvec : ∀ pid ∈ C.product_map.map Prod.fst,
      (dictGet C.product_vectors_data pid).isSome)
    (hcat : ∀ pid ∈ C.product_map.map Prod.fst,
      (dictGet C.product_catalog pid).isSome) :
    ∃ cands, candidate_generation C scorer ridx st lt = Except.ok cands ∧
      cands.length = min TOP_K_CANDIDATES C.product_map.length ∧
      ∀ c ∈ cands, c.2 ∈ C.product_map.map Prod.fst := by
  have hvec2 : ∀ pid ∈ C.product_map.map Prod.fst,
      ∃ b, vec_feature C pid = Except.ok b := by
    intro pid hp
    obtain ⟨v, hv⟩ := Option.isSome_iff_exists.mp (hvec pid hp)
    exact ⟨v, by simp [vec_feature, orRaise, hv]⟩
  have hcat2 : ∀ pid ∈ C.product_map.map Prod.fst,
      ∃ b, cat_feature C pid = Except.ok b := by
    intro pid hp
    obtain ⟨p, hp2⟩ := Option.isSome_iff_exists.mp (hcat pid hp)
    exact ⟨p.Category, by simp [cat_feature, orRaise, hp2]⟩
  have hmargin2 : ∀ pid ∈ C.product_map.map Prod.fst,
      ∃ b, margin_feature C pid = Except.ok b := by
    intro pid hp
    obtain ⟨p, hp2⟩ := Option.isSome_iff_exists.mp (hcat pid hp)
    exact ⟨p.ProfitMargin, by simp [margin_feature, orRaise, hp2]⟩
  have hstock2 : ∀ pid ∈ C.product_map.map Prod.fst,
      ∃ b, stock_feature C pid = Except.ok b := by
    intro pid hp
    obtain ⟨p, hp2⟩ := Option.isSome_iff_exists.mp (hcat pid hp)
    exact ⟨p.CurrentStock, by simp [stock_feature, orRaise, hp2]⟩
  obtain ⟨vecs, hvecs, hlvecs⟩ := mapE_ok _ _ hvec2
  obtain ⟨cats, hcats, hlcats⟩ := mapE_ok _ _ hcat2
  obtain ⟨margins, hmargins, hlmargins⟩ := mapE_ok _ _ hmargin2
  obtain ⟨stocks, hstocks, hlstocks⟩ := mapE_ok _ _ hstock2
  have hnpids : (C.product_map.map Prod.fst).length = C.product_map.length :=
    List.length_map _ _
  have hinputs : (buildInputs ridx st lt (C.product_map.map Prod.snd)
      vecs cats margins stocks).length = C.product_map.length := by
    rw [buildInputs_length ridx st lt (C.product_map.map Prod.snd)
      vecs cats margins stocks
      (by rw [hlvecs, hnpids, List.length_map])
      (by rw [hlcats, hnpids, List.length_map])
      (by rw [hlmargins, hnpids, List.length_map])
      (by rw [hlstocks, hnpids, List.length_map])]
    exact List.length_map _ _
  have hpred : ((buildInputs ridx st lt (C.product_map.map Prod.snd)
      vecs cats margins stocks).map scorer).length = C.product_map.length := by
    rw [List.length_map, hinputs]
  simp only [candidate_generation, hvecs, hcats, hmargins, hstocks,
    bind_ok, pure_ok]
  refine ⟨_, rfl, ?_, ?_⟩
  · rw [List.length_zip, List.length_map, List.length_map,
      select_top_k_length, hpred, min_self]
  · intro c hc
    have hc2 : c.2 ∈ (select_top_k ((buildInputs ridx st lt
        (C.product_map.map Prod.snd) vecs cats margins stocks).map scorer)
        TOP_K_CANDIDATES).map
        (fun i => (C.product_map.map Prod.fst).getD i "") := by
      have := List.of_mem_zip (show (c.1, c.2) ∈ _ from hc)
      exact this.2
    obtain ⟨i, hi, hieq⟩ := List.mem_map.mp hc2
    have hilt : i < C.product_map.length := by
      have := select_top_k_mem_lt _ _ _ hi
      rwa [hpred] at this
    rw [← hieq, List.getD_eq_getElem _ _ (by rwa [hnpids])]
    exact List.getElem_mem _

/-- Re-ranking succeeds on candidates whose product ids resolve in the
product catalog; each output entry `(pid, businessScore, modelScore)`
reproduces a candidate `(modelScore, pid)`. -/
theorem rerank_all_ok (C : Catalog) (cands : List (ℚ × String))
    (hmem : ∀ c ∈ cands, c.2 ∈ C.product_map.map Prod.fst)
    (hcat : ∀ pid ∈ C.product_map.map Prod.fst,
      (dictGet C.product_catalog pid).isSome) :
    ∃ entries, mapE (rerank_candidate C.product_catalog) cands =
        Except.ok entries ∧
      entries.length = cands.length ∧
      ∀ e ∈ entries, (e.2.2, e.1) ∈ cands := by
  have hok : ∀ c ∈ cands, ∃ e,
      rerank_candidate C.product_catalog c = Except.ok e := by
    intro c hc
    obtain ⟨p, hp⟩ := Option.isSome_iff_exists.mp (hcat c.2 (hmem c hc))
    exact ⟨_, rerank_candidate_eq C.product_catalog c.1 c.2 p hp⟩
  obtain ⟨entries, he, hlen⟩ := mapE_ok _ _ hok
  refine ⟨entries, he, hlen, ?_⟩
  intro e hee
  obtain ⟨c, hc, hfc⟩ := mapE_mem _ _ _ he e hee
  obtain ⟨p, hp⟩ := Option.isSome_iff_exists.mp (hcat c.2 (hmem c hc))
  rw [rerank_candidate_eq C.product_catalog c.1 c.2 p hp] at hfc
  cases hfc
  exact hc

/-- Unfolding the endpoint on a request in which every stage succeeds. -/
theorem get_hybrid_eq (C : Catalog) (scorer : ScorerInput → ℚ)
    (rid : String) (ridx : Int) (rdata : RetailerData)
    (cands : List (ℚ × String)) (entries : List (String × ℚ × ℚ))
    (h1 : dictGet C.retailer_map rid = some ridx)
    (h2 : dictGet C.retailer_profiles rid = some rdata)
    (h3 : candidate_generation C scorer ridx rdata.StoreType
      rdata.LocationTier = Except.ok cands)
    (h4 : mapE (rerank_candidate C.product_catalog) cands =
      Except.ok entries) :
    get_hybrid_recommendations C scorer rid =
      Except.ok ((((sort_final entries).take FINAL_LIST_SIZE).enum).map
        (fun p => RecommendationResponse.mk p.2.1 p.2.2.2 (p.1 + 1))) := by
  simp only [get_hybrid_recommendations, h1, h2, orRaise, bind_ok, h3, h4,
    pure_ok]

/-- The rank of the `i`-th emitted response is `i + 1`. -/
theorem ranks_dense (l : List (String × ℚ × ℚ)) (i : Nat)
    (h : i < ((l.enum).map
      (fun p => RecommendationResponse.mk p.2.1 p.2.2.2 (p.1 + 1))).length) :
    (((l.enum).map
      (fun p => RecommendationResponse.mk p.2.1 p.2.2.2 (p.1 + 1))).get
        ⟨i, h⟩).final_rank = i + 1 := by
  have hi : i < (l.enum).length := by
    simpa using h
  simp [List.get_eq_getElem, List.enum_eq_enumFrom, List.getElem_enumFrom]

/-! ### Claims -/

/-- C1: for every shortlisted candidate, the business score computed by
the re-ranker equals
`W_MODEL*modelScore + W_PROFIT*normalizedMargin - W_STOCK*stockPenalty`
with `normalizedMargin = (profitMargin - 0.1) / (0.4 - 0.1)` and
`stockPenalty = 1.0 if currentStock < 50 else 0.0`; in particular stock
49 incurs penalty 1.0 and stock 50 incurs penalty 0.0. -/
theorem claim_C1 (pc : List (String × ProductData)) (s : ℚ)
    (pid : String) (p : ProductData) (h : dictGet pc pid = some p) :
    rerank_candidate pc (s, pid) = Except.ok (pid,
      W_MODEL * s + W_PROFIT * ((p.ProfitMargin - 0.1) / (0.4 - 0.1))
        - W_STOCK * (if p.CurrentStock < 50 then 1.0 else 0.0), s) ∧
    stock_penalty 49 = 1.0 ∧ stock_penalty 50 = 0.0 := by
  refine ⟨?_, by norm_num [stock_penalty], by norm_num [stock_penalty]⟩
  rw [rerank_candidate_eq pc s pid p h]
  simp only [business_score, normalized_margin, stock_penalty]

/-- Witness for C1 at a concrete catalog row (`P1`: margin 0.1,
stock 10). -/
theorem claim_C1_witness :
    dictGet exCatalog.product_catalog "P1" =
      some ⟨0, 0.1, 10⟩ ∧
    (rerank_candidate exCatalog.product_catalog (0.9, "P1") =
      Except.ok ("P1",
        W_MODEL * 0.9 + W_PROFIT * (((0.1 : ℚ) - 0.1) / (0.4 - 0.1))
          - W_STOCK * (if (10 : ℚ) < 50 then 1.0 else 0.0), 0.9) ∧
      stock_penalty 49 = 1.0 ∧ stock_penalty 50 = 0.0) :=
  ⟨rfl, claim_C1 exCatalog.product_catalog 0.9 "P1" ⟨0, 0.1, 10⟩ rfl⟩

/-- C5: margin normalization is exact and unclamped: margins 0.1, 0.4
and 0.25 map to 0.0, 1.0 and 0.5, and a margin outside `[0.1, 0.4]`
yields a value outside `[0, 1]`. -/
theorem claim_C5 :
    normalized_margin 0.1 = 0 ∧ normalized_margin 0.4 = 1 ∧
    normalized_margin 0.25 = 0.5 ∧
    (∀ m : ℚ, m < 0.1 → normalized_margin m < 0) ∧
    (∀ m : ℚ, 0.4 < m → 1 < normalized_margin m) := by
  refine ⟨by norm_num [normalized_margin], by norm_num [normalized_margin],
    by norm_num [normalized_margin], ?_, ?_⟩
  · intro m hm
    rw [normalized_margin]
    apply div_neg_of_neg_of_pos
    · have h1 : (0.1 : ℚ) = 1/10 := by norm_num
      rw [h1] at hm ⊢
      linarith
    · norm_num
  · intro m hm
    rw [normalized_margin, lt_div_iff₀ (by norm_num : (0 : ℚ) < 0.4 - 0.1)]
    have h1 : (0.4 : ℚ) = 2/5 := by norm_num
    have h2 : (0.1 : ℚ) = 1/10 := by norm_num
    rw [h1] at hm
    rw [h1, h2]
    linarith

/-- Witness for C5 at out-of-domain margins 0 and 1. -/
theorem claim_C5_witness :
    (0 : ℚ) < 0.1 ∧ (0.4 : ℚ) < 1 ∧
    normalized_margin 0 < 0 ∧ 1 < normalized_margin 1 :=
  ⟨by norm_num, by norm_num,
    claim_C5.2.2.2.1 0 (by norm_num), claim_C5.2.2.2.2 1 (by norm_num)⟩

/-- C6: the clamped `normalized_stock` does not feed the business
score: two candidates with equal model score and margin whose stocks
lie on the same side of the threshold 50 get identical business
scores. -/
theorem claim_C6 (s margin stock1 stock2 : ℚ)
    (h : stock1 < 50 ↔ stock2 < 50) :
    business_score s margin stock1 = business_score s margin stock2 := by
  simp only [business_score, stock_penalty]
  by_cases h1 : stock1 < 50
  · rw [if_pos h1, if_pos (h.mp h1)]
  · rw [if_neg h1, if_neg (fun h2 => h1 (h.mpr h2))]

/-- Witness for C6: stocks 60 and 400 are on the same side of 50 but
have different `normalized_stock` values; the business score is the
same. -/
theorem claim_C6_witness :
    ((60 : ℚ) < 50 ↔ (400 : ℚ) < 50) ∧
    normalized_stock 60 ≠ normalized_stock 400 ∧
    business_score 1 0.2 60 = business_score 1 0.2 400 :=
  ⟨by norm_num, by norm_num [normalized_stock],
    claim_C6 1 0.2 60 400 (by norm_num)⟩

/-- C7: a retailer id absent from `retailer_map` fails with the 404
not-found error, for every scorer and every catalog content, so no
scoring, selection or re-ranking is performed and no partial result is
returned. -/
theorem claim_C7 (C : Catalog) (scorer : ScorerInput → ℚ) (rid : String)
    (h : dictGet C.retailer_map rid = none) :
    get_hybrid_recommendations C scorer rid =
      Except.error RecError.notFound := by
  simp only [get_hybrid_recommendations, h]

/-- Witness for C7: `R999` is absent from the example catalog. -/
theorem claim_C7_witness :
    dictGet exCatalog.retailer_map "R999" = none ∧
    get_hybrid_recommendations exCatalog exScorer "R999" =
      Except.error RecError.notFound :=
  ⟨rfl, claim_C7 exCatalog exScorer "R999" rfl⟩

/-- C8: the endpoint is deterministic: with the same catalog snapshot
and extensionally equal scorers, two calls return identical ranked
output. -/
theorem claim_C8 (C : Catalog) (s1 s2 : ScorerInput → ℚ) (rid : String)
    (h : ∀ x, s1 x = s2 x) :
    get_hybrid_recommendations C s1 rid =
      get_hybrid_recommendations C s2 rid := by
  have hs : s1 = s2 := funext h
  rw [hs]

/-- Witness for C8 at the example snapshot. -/
theorem claim_C8_witness :
    (∀ x, exScorer x = exScorer x) ∧
    get_hybrid_recommendations exCatalog exScorer "R001" =
      get_hybrid_recommendations exCatalog exScorer "R001" :=
  ⟨fun _ => rfl,
    claim_C8 exCatalog exScorer exScorer "R001" (fun _ => rfl)⟩

/-- C9: a request is a read-only computation over the shared global
state: running the stateful endpoint leaves the catalog (product
catalog, profiles, maps, vectors, weights) exactly as it was, and
returns the value of the pure endpoint. -/
theorem claim_C9 (C : Catalog) (scorer : ScorerInput → ℚ)
    (rid : String) :
    (get_hybrid_recommendations_st scorer rid).run C =
      (get_hybrid_recommendations C scorer rid, C) := by
  have hget : ∀ {α : Type} (f : Catalog → StateM Catalog α)
      (s : Catalog), (get >>= f : StateM Catalog α) s = f s s :=
    fun _ _ => rfl
  simp only [get_hybrid_recommendations_st, get_hybrid_recommendations,
    StateT.run, hget]
  rcases hd : dictGet C.retailer_map rid with _ | ridx
  · rfl
  · simp only [hget]
    rcases hp : dictGet C.retailer_profiles rid with _ | rdata
    · rfl
    · simp only [orRaise, bind_ok, hget]
      rcases hcg : candidate_generation C scorer ridx rdata.StoreType
          rdata.LocationTier with e | cands
      · rfl
      · simp only [bind_ok, hget]
        rcases hm : mapE (rerank_candidate C.product_catalog) cands
          with e | entries
        · rfl
        · rfl

/-- C10: a retailer id present in `retailer_map` but absent from
`retailer_profiles` is not rejected with the 404 not-found error;
instead the unguarded profile lookup raises a `KeyError`. -/
theorem claim_C10 (C : Catalog) (scorer : ScorerInput → ℚ)
    (rid : String) (ridx : Int)
    (h1 : dictGet C.retailer_map rid = some ridx)
    (h2 : dictGet C.retailer_profiles rid = none) :
    get_hybrid_recommendations C scorer rid =
      Except.error (RecError.keyError rid) ∧
    get_hybrid_recommendations C scorer rid ≠
      Except.error RecError.notFound := by
  have he : get_hybrid_recommendations C scorer rid =
      Except.error (RecError.keyError rid) := by
    simp only [get_hybrid_recommendations, h1, h2, orRaise, bind_error]
  refine ⟨he, ?_⟩
  rw [he]
  intro hcon
  cases hcon

/-- Witness for C10: `R007` is in `gapCatalog`'s retailer map but has
no profile row. -/
theorem claim_C10_witness :
    dictGet gapCatalog.retailer_map "R007" = some 0 ∧
    dictGet gapCatalog.retailer_profiles "R007" = none ∧
    (get_hybrid_recommendations gapCatalog exScorer "R007" =
      Except.error (RecError.keyError "R007") ∧
    get_hybrid_recommendations gapCatalog exScorer "R007" ≠
      Except.error RecError.notFound) :=
  ⟨rfl, rfl, claim_C10 gapCatalog exScorer "R007" 0 rfl rfl⟩

/-- C4: candidate selection returns `min k n` products, in descending
score order, every selected product scoring at least every unselected
product; with `k` at least the catalog size it returns all products
sorted descending by score. -/
theorem claim_C4 (xs : List ℚ) (k : Nat) :
    (select_top_k xs k).length = min k xs.length ∧
    ((select_top_k xs k).map (fun i => xs.getD i 0)).Pairwise
      (fun a b => b ≤ a) ∧
    (∀ i ∈ select_top_k xs k, ∀ j, j < xs.length →
      j ∉ select_top_k xs k → xs.getD j 0 ≤ xs.getD i 0) ∧
    (xs.length ≤ k →
      List.Perm (select_top_k xs k) (List.range xs.length)) := by
  refine ⟨select_top_k_length xs k,
    List.pairwise_map.mpr (select_top_k_sorted xs k), ?_,
    fun h => select_top_k_all xs k h⟩
  intro i hi j hj hj2
  exact select_top_k_ge_unselected xs k i j hi hj hj2

/-- Witness for C4 on scores `[1, 3, 2]` with `k = 2`: index 1 is
selected, index 0 is not, and the unselected score is bounded by the
selected one. -/
theorem claim_C4_witness :
    1 ∈ select_top_k [(1 : ℚ), 3, 2] 2 ∧
    0 ∉ select_top_k [(1 : ℚ), 3, 2] 2 ∧
    ([(1 : ℚ), 3, 2].getD 0 0 ≤ [(1 : ℚ), 3, 2].getD 1 0) :=
  ⟨by decide, by decide,
    (claim_C4 [(1 : ℚ), 3, 2] 2).2.2.1 1 (by decide) 0 (by decide)
      (by decide)⟩

/-- C2: the final list is the candidate list sorted by a stable
descending sort on the business score (ties keep the candidate order),
and the ordering is not by predicted score alone: in the concrete
three-product scenario the product with model score 0.8 outranks the
product with model score 0.9 (which pays the stock penalty). -/
theorem claim_C2 :
    (∀ l : List (String × ℚ × ℚ),
      (sort_final l).Pairwise (fun a b => b.2.1 ≤ a.2.1)) ∧
    (∀ (l : List (String × ℚ × ℚ)) (a b : String × ℚ × ℚ),
      List.Sublist [a, b] l → a.2.1 = b.2.1 →
      List.Sublist [a, b] (sort_final l)) ∧
    get_hybrid_recommendations exCatalog exScorer "R001" =
      Except.ok [⟨"P2", 0.8, 1⟩, ⟨"P3", 0.7, 2⟩, ⟨"P1", 0.9, 3⟩] := by
  refine ⟨?_, ?_, ?_⟩
  · intro l
    haveI : IsTotal (String × ℚ × ℚ) (fun a b => b.2.1 ≤ a.2.1) :=
      ⟨fun a b => le_total b.2.1 a.2.1⟩
    haveI : IsTrans (String × ℚ × ℚ) (fun a b => b.2.1 ≤ a.2.1) :=
      ⟨fun _ _ _ hab hbc => le_trans hbc hab⟩
    exact List.sorted_insertionSort _ l
  · intro l a b hs heq
    exact List.pair_sublist_insertionSort heq.symm.le hs
  · simp only [get_hybrid_recommendations, exCatalog, exScorer, dictGet,
      orRaise, mapE, candidate_generation, buildInputs, select_top_k,
      argsort, rerank_candidate, business_score, normalized_margin,
      normalized_stock, stock_penalty, sort_final, W_MODEL, W_PROFIT,
      W_STOCK, TOP_K_CANDIDATES, FINAL_LIST_SIZE, vec_feature,
      cat_feature, margin_feature, stock_feature, List.insertionSort,
      List.orderedInsert, bind_ok, bind_error, pure_ok, String.reduceEq,
      reduceIte, List.length_cons, List.length_nil, List.range,
      List.range.loop, List.getD, List.get?, List.reverse,
      List.reverseAux, List.take, List.map, List.zip, List.zipWith,
      List.enum, List.enumFrom]
    norm_num [mapE, rerank_candidate, dictGet, orRaise, business_score,
      normalized_margin, normalized_stock, stock_penalty, sort_final,
      W_MODEL, W_PROFIT, W_STOCK, bind_ok, bind_error, pure_ok,
      List.insertionSort, List.orderedInsert, List.take, List.map,
      List.enum, List.enumFrom]
    simp only [dictGet, orRaise, bind_ok, bind_error, pure_ok,
      String.reduceEq, reduceIte, List.orderedInsert]
    norm_num [List.insertionSort, List.orderedInsert, List.take,
      List.map, List.enum, List.enumFrom]

/-- Witness for C2: a concrete tied pair keeps its original order
through the stable sort. -/
theorem claim_C2_witness :
    List.Sublist [("A", (1 : ℚ), 2), ("B", (1 : ℚ), 3)]
      [("A", (1 : ℚ), 2), ("B", (1 : ℚ), 3)] ∧
    (("A", (1 : ℚ), 2) : String × ℚ × ℚ).2.1 =
      (("B", (1 : ℚ), 3) : String × ℚ × ℚ).2.1 ∧
    List.Sublist [("A", (1 : ℚ), 2), ("B", (1 : ℚ), 3)]
      (sort_final [("A", (1 : ℚ), 2), ("B", (1 : ℚ), 3)]) :=
  ⟨List.Sublist.refl _, rfl,
    claim_C2.2.1 [("A", (1 : ℚ), 2), ("B", (1 : ℚ), 3)]
      ("A", (1 : ℚ), 2) ("B", (1 : ℚ), 3) (List.Sublist.refl _) rfl⟩

/-- C3: for a retailer resolving in both the retailer map and the
profile table, over a catalog in which every product of `product_map`
resolves, the endpoint returns exactly
`min FINAL_LIST_SIZE (min TOP_K_CANDIDATES catalogSize)` results, the
ranks form the dense sequence `1, 2, ..., N`, and every result carries
as predicted score the model score of one of the generated
candidates. -/
theorem claim_C3 (C : Catalog) (scorer : ScorerInput → ℚ) (rid : String)
    (ridx : Int) (rdata : RetailerData)
    (h1 : dictGet C.retailer_map rid = some ridx)
    (h2 : dictGet C.retailer_profiles rid = some rdata)
    (hvec : ∀ pid ∈ C.product_map.map Prod.fst,
      (dictGet C.product_vectors_data pid).isSome)
    (hcat : ∀ pid ∈ C.product_map.map Prod.fst,
      (dictGet C.product_catalog pid).isSome) :
    ∃ rs cands,
      get_hybrid_recommendations C scorer rid = Except.ok rs ∧
      candidate_generation C scorer ridx rdata.StoreType
        rdata.LocationTier = Except.ok cands ∧
      rs.length =
        min FINAL_LIST_SIZE (min TOP_K_CANDIDATES C.product_map.length) ∧
      (∀ i, ∀ h : i < rs.length, (rs.get ⟨i, h⟩).final_rank = i + 1) ∧
      (∀ r ∈ rs, (r.predicted_score, r.product_id) ∈ cands) := by
  obtain ⟨cands, hcg, hclen, hcmem⟩ := candidate_generation_ok C scorer
    ridx rdata.StoreType rdata.LocationTier hvec hcat
  obtain ⟨entries, he, helen, hemem⟩ := rerank_all_ok C cands hcmem hcat
  refine ⟨_, cands,
    get_hybrid_eq C scorer rid ridx rdata cands entries h1 h2 hcg he,
    hcg, ?_, ?_, ?_⟩
  · rw [List.length_map, List.enum_eq_enumFrom, List.enumFrom_length,
      List.length_take, sort_final, List.length_insertionSort, helen,
      hclen]
  · intro i h
    exact ranks_dense _ i h
  · intro r hr
    obtain ⟨p, hp, hfp⟩ := List.mem_map.mp hr
    have hsnd : p.2 ∈ (sort_final entries).take FINAL_LIST_SIZE := by
      have hm2 := List.mem_map_of_mem Prod.snd hp
      rw [List.enum_eq_enumFrom, List.enumFrom_map_snd] at hm2
      exact hm2
    have h3 : p.2 ∈ sort_final entries := List.mem_of_mem_take hsnd
    have h4 : p.2 ∈ entries := by
      rw [sort_final] at h3
      exact (List.perm_insertionSort _ entries).mem_iff.mp h3
    have h5 := hemem p.2 h4
    rw [← hfp]
    exact h5

/-- Witness for C3 on the three-product example catalog. -/
theorem claim_C3_witness :
    dictGet exCatalog.retailer_map "R001" = some 0 ∧
    dictGet exCatalog.retailer_profiles "R001" = some ⟨0, 0⟩ ∧
    (∀ pid ∈ exCatalog.product_map.map Prod.fst,
      (dictGet exCatalog.product_vectors_data pid).isSome) ∧
    (∀ pid ∈ exCatalog.product_map.map Prod.fst,
      (dictGet exCatalog.product_catalog pid).isSome) ∧
    (∃ rs cands,
      get_hybrid_recommendations exCatalog exScorer "R001" =
        Except.ok rs ∧
      candidate_generation exCatalog exScorer 0
        (RetailerData.mk 0 0).StoreType
        (RetailerData.mk 0 0).LocationTier = Except.ok cands ∧
      rs.length = min FINAL_LIST_SIZE
        (min TOP_K_CANDIDATES exCatalog.product_map.length) ∧
      (∀ i, ∀ h : i < rs.length, (rs.get ⟨i, h⟩).final_rank = i + 1) ∧
      (∀ r ∈ rs, (r.predicted_score, r.product_id) ∈ cands)) :=
  ⟨rfl, rfl, by decide, by decide,
    claim_C3 exCatalog exScorer "R001" 0 ⟨0, 0⟩ rfl rfl (by decide)
      (by decide)⟩

end Qwipo
